import Mathlib

/-!
Shallow embedding of the `@tokenring-ai/app` runtime kernel
(`src/StateManager.ts`, `src/PluginManager.ts`, `src/TokenRingApp.ts`).

JS `Map<string, _>` is modelled as an insertion-ordered association list;
`Map.set` replaces in place or appends.  Errors thrown by the code are
modelled as `Except String _` values carrying the message text.  A state
slice is a value of an abstract type `σ`; the in-place mutation performed
by a `mutateState` callback is modelled as the callback returning the new
slice value, which is written back at the slice's key (the stored object
and the mutated object are the same object in JS).
-/

namespace TokenRing

/-- Association-list lookup, mirroring `Map.get`. -/
def lookupKey {α : Type} : List (String × α) → String → Option α
  | [], _ => none
  | (k, v) :: rest, key => if k = key then some v else lookupKey rest key

/-- `Map.set`: replace the binding in place if the key is present, else append. -/
def setKey {α : Type} : List (String × α) → String → α → List (String × α)
  | [], key, v => [(key, v)]
  | (k, w) :: rest, key, v =>
    if k = key then (key, v) :: rest else (k, w) :: setKey rest key v

/-- The message of the error thrown by `getState` / `mutateState` when no
slice is stored under the class name. -/
def sliceNotFoundMsg (key : String) : String :=
  "State slice " ++ key ++ " not found"

/-- `StateManager`: `state` maps a class name to the stored slice,
`subscribers` maps a class name to the insertion-ordered set of subscriber
callbacks, identified here by `Nat` ids. -/
structure StateManager (σ : Type) where
  state : List (String × σ)
  subscribers : List (String × List Nat)

namespace StateManager

/-- `initializeState`: `this.state.set(ClassType.name, new ClassType(props))`;
the freshly constructed slice is abstracted to its value `s`. -/
def initializeState {σ : Type} (m : StateManager σ) (key : String) (s : σ) :
    StateManager σ :=
  { m with state := setKey m.state key s }

/-- `getState`: return the stored slice or throw the slice-not-found error. -/
def getState {σ : Type} (m : StateManager σ) (key : String) : Except String σ :=
  match lookupKey m.state key with
  | none => .error (sliceNotFoundMsg key)
  | some s => .ok s

/-- Result of one `mutateState` call: the slice store after the call, whether
the mutation callback ran, the subscribers notified (in iteration order, with
the slice value each one received), and the value returned or error thrown. -/
structure MutateResult (σ R : Type) where
  state : List (String × σ)
  callbackRan : Bool
  notified : List (Nat × σ)
  result : Except String R

/-- `Set.forEach(cb => cb(state))`: visit subscribers in insertion order; a
callback that throws stops the iteration and its exception propagates.
`beh id slice` is subscriber `id`'s behaviour when invoked with `slice`. -/
def notifyAll {σ : Type} (beh : Nat → σ → Except String Unit) (slice : σ) :
    List Nat → List (Nat × σ) × Option String
  | [] => ([], none)
  | id :: rest =>
    match beh id slice with
    | .error e => ([(id, slice)], some e)
    | .ok _ =>
      let next := notifyAll beh slice rest
      ((id, slice) :: next.1, next.2)

/-- `mutateState`: look up the slice (throw if absent), run the callback on it
(the callback mutates the stored object in place and returns a value), then
synchronously notify every subscriber registered for the key with the mutated
slice, and return the callback's value. -/
def mutateState {σ R : Type} (m : StateManager σ) (key : String)
    (callback : σ → σ × R) (beh : Nat → σ → Except String Unit) :
    MutateResult σ R :=
  match lookupKey m.state key with
  | none => ⟨m.state, false, [], .error (sliceNotFoundMsg key)⟩
  | some s =>
    let s' := (callback s).1
    let subs := (lookupKey m.subscribers key).getD []
    let next := notifyAll beh s' subs
    ⟨setKey m.state key s', true, next.1,
      match next.2 with
      | some e => .error e
      | none => .ok (callback s).2⟩

/-- `subscribe`: ensure a subscriber set exists for the key and add the
callback to it (`Set.add` is a no-op when already present). -/
def subscribe {σ : Type} (m : StateManager σ) (key : String) (cbId : Nat) :
    StateManager σ :=
  let subs := (lookupKey m.subscribers key).getD []
  let subs' := if cbId ∈ subs then subs else subs ++ [cbId]
  { m with subscribers := setKey m.subscribers key subs' }

/-- The unsubscribe closure returned by `subscribe`:
`this.subscribers.get(key)?.delete(callback)`. -/
def unsubscribe {σ : Type} (m : StateManager σ) (key : String) (cbId : Nat) :
    StateManager σ :=
  match lookupKey m.subscribers key with
  | none => m
  | some subs => { m with subscribers := setKey m.subscribers key (subs.erase cbId) }

/-- The microtask queued by `subscribe`: if the callback is still subscribed,
invoke it with `getState`'s result (which may throw).  Returns `.ok none` when
the replay was skipped (callback already unsubscribed), `.ok (some s)` when
the callback was invoked with slice `s`, `.error e` when `getState` threw. -/
def replayTask {σ : Type} (m : StateManager σ) (key : String) (cbId : Nat) :
    Except String (Option σ) :=
  if cbId ∈ (lookupKey m.subscribers key).getD [] then
    match m.getState key with
    | .error e => .error e
    | .ok s => .ok (some s)
  else .ok none

/-- Outcome of `waitForState`'s promise after the deferred replay fired. -/
inductive WaitOutcome (σ : Type) where
  | resolved (s : σ)
  | pending
  | errored (e : String)
deriving DecidableEq

/-- `waitForState` up to and including its subscription's deferred replay:
subscribe the predicate-checking callback, then run the scheduled replay; the
callback resolves the promise when the predicate holds for the replayed state. -/
def waitForStateFirstReplay {σ : Type} (m : StateManager σ) (key : String)
    (p : σ → Bool) (cbId : Nat) : WaitOutcome σ :=
  let m' := m.subscribe key cbId
  match replayTask m' key cbId with
  | .error e => .errored e
  | .ok none => .pending
  | .ok (some s) => if p s then .resolved s else .pending

end StateManager

/-- Events observed by a running `subscribeAsync` generator: a `mutateState`
notification on its key (carrying the mutated slice), the firing of the one
deferred replay microtask queued by the generator's internal `subscribe`
(which re-reads the current state), the abort signal firing, or the consumer
pulling the next element.  A schedule for one generator contains exactly one
`replay`, since `subscribe` queues exactly one microtask. -/
inductive GEvent (σ : Type) where
  | mutate (s : σ)
  | replay
  | abort
  | pull

/-- Cooperative-scheduling configuration of one `subscribeAsync` generator:
`cur` is the slice currently stored in the state map under the generator's
key (what `getState` returns; mutations overwrite it), `latest` the
`latestItem` buffer, `aborted` the signal/`isComplete` flags (both are set
only by the abort handler), `live` whether the generator body has not yet
returned (and hence is still subscribed — it unsubscribes in its `finally`),
`pending` whether the consumer awaits a value while the generator is
suspended on the inner `await` (i.e. `resolveNext` is armed). -/
structure GenCfg (σ : Type) where
  cur : Option σ
  latest : Option σ
  aborted : Bool
  live : Bool
  pending : Bool

namespace GenCfg

/-- Resume the generator body at the inner suspension point: the loop guard
`!isComplete && !signal.aborted` fails once aborted (the generator returns);
otherwise `if (latestItem && !signal.aborted)` yields the buffered item and
clears the buffer; with an empty buffer the body awaits `resolveNext`. -/
def resume {σ : Type} (c : GenCfg σ) : GenCfg σ × Option σ :=
  if c.aborted then ({ c with live := false, pending := false }, none)
  else
    match c.latest with
    | some v => ({ c with latest := none, pending := false }, some v)
    | none => ({ c with pending := true }, none)

/-- One scheduler step.  A mutation updates the stored slice and, while the
generator is subscribed, runs the subscription callback
(`latestItem = state; resolveNext?.()`): it overwrites the buffer and wakes a
pending await.  The deferred replay runs `callback(this.getState(ClassType))`
if the callback is still subscribed: it refills the buffer with the current
state and wakes a pending await.  Abort sets `isComplete` and wakes a pending
await.  A pull resumes the generator at its yield point (or returns done if
the body already returned).  The second component is the element delivered to
the consumer. -/
def step {σ : Type} (c : GenCfg σ) : GEvent σ → GenCfg σ × Option σ
  | .mutate s =>
    if c.live then
      let c' := { c with cur := some s, latest := some s }
      if c.pending then c'.resume else (c', none)
    else ({ c with cur := some s }, none)
  | .replay =>
    if c.live then
      let c' := { c with latest := c.cur }
      if c.pending then c'.resume else (c', none)
    else (c, none)
  | .abort =>
    let c' := { c with aborted := true }
    if c.live && c.pending then c'.resume else (c', none)
  | .pull => if c.live then c.resume else (c, none)

/-- Run the generator against a whole event schedule, collecting the elements
delivered to the consumer in order. -/
def run {σ : Type} (c : GenCfg σ) : List (GEvent σ) → List σ
  | [] => []
  | ev :: rest =>
    let out := c.step ev
    match out.2 with
    | some v => v :: out.1.run rest
    | none => out.1.run rest

end GenCfg

/-- Entry of `subscribeAsync`: if the signal is already aborted the generator
returns at once (empty sequence); otherwise `latestItem` is initialised with
`this.getState(ClassType)` (which throws when no slice is stored) and the
generator subscribes (queueing the one deferred replay) and enters its loop. -/
def StateManager.subscribeAsyncInit {σ : Type} (m : StateManager σ)
    (key : String) (aborted0 : Bool) : Except String (GenCfg σ) :=
  if aborted0 then
    .ok { cur := none, latest := none, aborted := true, live := false, pending := false }
  else
    match m.getState key with
    | .error e => .error e
    | .ok s =>
      .ok { cur := some s, latest := some s, aborted := false, live := true,
            pending := false }

/-- Outcome of invoking a `start` hook, which is typed
`(app, config) => Promise<void> | void` and documented as asynchronous
initialisation: it may return normally (or return a promise that resolves),
throw synchronously, or return a promise that later rejects.
`installPlugins` invokes the hook without `await`, so only a synchronous
throw can reach its `catch`. -/
inductive AsyncOutcome where
  | ok
  | throws (e : String)
  | rejects (e : String)

/-- A plugin as `PluginManager` consumes it.  `config` is the optional Zod
schema, abstracted to its `parse` behaviour on an application config (which
may throw a validation error); `install`, `start` and `reconfigure` are the
optional hooks, abstracted to their effect on the resolved config slice.
`install` is contractually synchronous and `reconfigure` is awaited, so both
are `Except`; `start` is invoked without `await`, so its behaviour is an
`AsyncOutcome`.  `Cfg` is the application config type, `Slice` the parsed
config-slice type (hooks of a schema-less plugin receive the empty object,
`emptySlice`). -/
structure PluginM (Cfg Slice : Type) where
  name : String
  config : Option (Cfg → Except String Slice)
  install : Option (Slice → Except String Unit)
  start : Option (Slice → AsyncOutcome)
  reconfigure : Option (Slice → Except String Unit)

namespace PluginM

/-- `'config' in plugin ? plugin.config.parse(this.app.config) : \x7b\x7d`. -/
def resolveSlice {Cfg Slice : Type} (appConfig : Cfg) (emptySlice : Slice)
    (p : PluginM Cfg Slice) : Except String Slice :=
  match p.config with
  | some parse => parse appConfig
  | none => .ok emptySlice

/-- One iteration of the install loop's `try` body before `register`:
`if (plugin.install) plugin.install(app, <resolved slice>)`.  The slice
argument (and hence `parse`) is only evaluated when the hook exists. -/
def installStep {Cfg Slice : Type} (appConfig : Cfg) (emptySlice : Slice)
    (p : PluginM Cfg Slice) : Except String Unit :=
  match p.install with
  | none => .ok ()
  | some f =>
    match resolveSlice appConfig emptySlice p with
    | .error e => .error e
    | .ok slice => f slice

/-- One iteration of the start loop's `try` body:
`if (plugin.start) plugin.start(app, <resolved slice>)` — not awaited.  The
slice argument (and hence `parse`) is evaluated synchronously only when the
hook exists; a parse failure is a synchronous throw inside the `try`. -/
def startStep {Cfg Slice : Type} (appConfig : Cfg) (emptySlice : Slice)
    (p : PluginM Cfg Slice) : AsyncOutcome :=
  match p.start with
  | none => .ok
  | some f =>
    match resolveSlice appConfig emptySlice p with
    | .error e => .throws e
    | .ok slice => f slice

/-- Log message of the install-phase `console.error`, paired with the thrown
error when logged. -/
def installErrorMsg (name : String) : String :=
  "Error installing plugin \"" ++ name ++ "\""

/-- Log message of the start-phase `console.error`. -/
def startErrorMsg (name : String) : String :=
  "Error starting plugin \"" ++ name ++ "\""

/-- Install phase of `installPlugins`: sequentially, in list order, run each
plugin's install step and register the plugin; on the first throw, log
`Error installing plugin "<name>"` with the error and re-raise, aborting the
rest of the batch.  Returns (registered plugins, names whose install hook was
invoked, log entries `(message, error)`, result). -/
def installPhase {Cfg Slice : Type} (appConfig : Cfg) (emptySlice : Slice) :
    List (PluginM Cfg Slice) →
    List (PluginM Cfg Slice) × List String × List (String × String) × Except String Unit
  | [] => ([], [], [], .ok ())
  | p :: rest =>
    let invokedHere : List String := if p.install.isSome then [p.name] else []
    match installStep appConfig emptySlice p with
    | .error e => ([], invokedHere, [(installErrorMsg p.name, e)], .error e)
    | .ok _ =>
      let next := installPhase appConfig emptySlice rest
      (p :: next.1, invokedHere ++ next.2.1, next.2.2.1, next.2.2.2)

/-- Start phase of `installPlugins`: sequentially, in list order, invoke each
plugin's start step without awaiting it.  A synchronous throw is caught,
logged as `Error starting plugin "<name>"` with the error and re-raised,
aborting the rest; a returned promise is discarded, so a later rejection is
never caught, logged or re-raised — the loop continues and the rejection is
recorded here as lost (an unhandled promise rejection).  Returns (names whose
start hook was invoked, log entries, lost asynchronous rejections
`(name, error)`, result). -/
def startPhase {Cfg Slice : Type} (appConfig : Cfg) (emptySlice : Slice) :
    List (PluginM Cfg Slice) →
    List String × List (String × String) × List (String × String) ×
      Except String Unit
  | [] => ([], [], [], .ok ())
  | p :: rest =>
    let invokedHere : List String := if p.start.isSome then [p.name] else []
    match startStep appConfig emptySlice p with
    | .throws e => (invokedHere, [(startErrorMsg p.name, e)], [], .error e)
    | .rejects e =>
      let next := startPhase appConfig emptySlice rest
      (invokedHere ++ next.1, next.2.1, (p.name, e) :: next.2.2.1, next.2.2.2)
    | .ok =>
      let next := startPhase appConfig emptySlice rest
      (invokedHere ++ next.1, next.2.1, next.2.2.1, next.2.2.2)

/-- Observable outcome of one `installPlugins(plugins)` call.
`lostStartRejections` are the rejections of unawaited asynchronous start
hooks, which escape the call entirely. -/
structure InstallOutcome (Cfg Slice : Type) where
  registered : List (PluginM Cfg Slice)
  installInvoked : List String
  startInvoked : List String
  logs : List (String × String)
  lostStartRejections : List (String × String)
  result : Except String Unit

/-- `installPlugins`: run the install phase over the whole batch; only when
it completes without a throw does the start phase run, over the same batch. -/
def installPlugins {Cfg Slice : Type} (appConfig : Cfg) (emptySlice : Slice)
    (plugins : List (PluginM Cfg Slice)) : InstallOutcome Cfg Slice :=
  let inst := installPhase appConfig emptySlice plugins
  match inst.2.2.2 with
  | .error e => ⟨inst.1, inst.2.1, [], inst.2.2.1, [], .error e⟩
  | .ok _ =>
    let st := startPhase appConfig emptySlice plugins
    ⟨inst.1, inst.2.1, st.1, inst.2.2.1 ++ st.2.1, st.2.2.1, st.2.2.2⟩

/-- Log line `Plugin <name> was reconfigured` (emitted before invoking the
`reconfigure` hook). -/
def reconfLogMsg (name : String) : String :=
  "Plugin " ++ name ++ " was reconfigured"

/-- Log line `Plugin <name> does not support reconfiguration`. -/
def noReconfLogMsg (name : String) : String :=
  "Plugin " ++ name ++ " does not support reconfiguration"

/-- Observable outcome of one `reconfigurePlugins(newConfig)` call.
`error = none` means the call resolved with `\x7brestartRequired\x7d`;
otherwise it rejected with the recorded error after the recorded partial
effects. -/
structure ReconfigureOutcome (Slice : Type) where
  reconfigured : List (String × Slice)
  logs : List String
  restartRequired : Bool
  error : Option String

/-- `reconfigurePlugins`: for each registered plugin (in registration order)
that declares a config schema, parse the previous slice from the active
config and the new slice from the incoming config; when they are deeply
unequal, either invoke `reconfigure` with the new slice (logging first) or
log unsupported-reconfiguration and set `restartRequired`.  Any throw (a
parse failure or a throwing `reconfigure` hook) aborts the loop and rejects. -/
def reconfigurePlugins {Cfg Slice : Type} [DecidableEq Slice]
    (oldCfg newCfg : Cfg) :
    List (PluginM Cfg Slice) → ReconfigureOutcome Slice
  | [] => ⟨[], [], false, none⟩
  | p :: rest =>
    match p.config with
    | none => reconfigurePlugins oldCfg newCfg rest
    | some parse =>
      match parse oldCfg with
      | .error e => ⟨[], [], false, some e⟩
      | .ok prev =>
        match parse newCfg with
        | .error e => ⟨[], [], false, some e⟩
        | .ok newSlice =>
          if prev = newSlice then reconfigurePlugins oldCfg newCfg rest
          else
            match p.reconfigure with
            | some f =>
              match f newSlice with
              | .error e =>
                ⟨[(p.name, newSlice)], [reconfLogMsg p.name], false, some e⟩
              | .ok _ =>
                let out := reconfigurePlugins oldCfg newCfg rest
                ⟨(p.name, newSlice) :: out.reconfigured,
                  reconfLogMsg p.name :: out.logs, out.restartRequired, out.error⟩
            | none =>
              let out := reconfigurePlugins oldCfg newCfg rest
              ⟨out.reconfigured, noReconfLogMsg p.name :: out.logs, true, out.error⟩

/-- A plugin that declares a schema whose slice changed between the two
configs (both parses succeeding) and that has no `reconfigure` hook — the
condition that flags `restartRequired`. -/
def changedNoReconf {Cfg Slice : Type} [DecidableEq Slice]
    (oldCfg newCfg : Cfg) (p : PluginM Cfg Slice) : Bool :=
  match p.config with
  | none => false
  | some parse =>
    match parse oldCfg, parse newCfg with
    | .ok prev, .ok newSlice => prev ≠ newSlice && p.reconfigure.isNone
    | _, _ => false

/-- A changed plugin that does expose `reconfigure`, paired with the new
slice its hook receives. -/
def changedReconf {Cfg Slice : Type} [DecidableEq Slice]
    (oldCfg newCfg : Cfg) (p : PluginM Cfg Slice) : Option (String × Slice) :=
  match p.config with
  | none => none
  | some parse =>
    match parse oldCfg, parse newCfg with
    | .ok prev, .ok newSlice =>
      if prev = newSlice then none
      else if p.reconfigure.isSome then some (p.name, newSlice) else none
    | _, _ => none

end PluginM

/-- Behaviour of a service's `run(signal)` hook across the supervisor's
restart loop, over abstract cooperative time (a counter of suspension
points): an invocation begun at time `t` takes `dur t` time units and throws
`err t` (or returns normally when `none`). -/
structure RunBehavior where
  dur : Nat → Nat
  err : Nat → Option String

/-- A registered `TokenRingService` as `TokenRingApp.run` consumes it:
`start`/`stop` are the optional hooks abstracted to their outcome when
awaited, `runB` the optional `run` hook's behaviour. -/
structure ServiceM where
  name : String
  start : Option (Except String Unit)
  runB : Option RunBehavior
  stop : Option (Except String Unit)

namespace TokenRingApp

/-- `serviceError` entry for a `run()` hook that returned normally while the
signal was not aborted. -/
def unexpectedExitMsg (name : String) : String :=
  "Service " ++ name ++ " exited unexpectedly. Restarting in 5s..."

/-- `serviceError` entry for a `run()` hook that threw while the signal was
not aborted; the thrown error is interpolated by `formatLogMessages`. -/
def diedMsg (name : String) (e : String) : String :=
  "Service " ++ name ++ " died with error: " ++ e ++ " Restarting in 5s..."

/-- One service's restart loop (`while (!signal.aborted) \x7b ... \x7d`):
`sig t` is whether the abort signal is set at time `t`; `wake t` is when the
cancellable 5-second backoff begun at `t` returns (5 s later, or at abort).
Fuel bounds the number of iterations modelled; the result is the log entries
emitted and the time at which the loop exited (`none` when the fuel ran out
with the loop still running). -/
def runLoop (rb : RunBehavior) (sig : Nat → Bool) (wake : Nat → Nat)
    (name : String) : Nat → Nat → List String × Option Nat
  | 0, _ => ([], none)
  | Nat.succ fuel, t =>
    if sig t then ([], some t)
    else
      let t1 := t + rb.dur t
      let entry : List String :=
        if sig t1 then []
        else
          match rb.err t with
          | none => [unexpectedExitMsg name]
          | some e => [diedMsg name e]
      if sig t1 then (entry, some t1)
      else
        let next := runLoop rb sig wake name fuel (wake t1)
        (entry ++ next.1, next.2)

/-- `Promise.all` over already-started async hooks: every hook is invoked;
the aggregate rejects (with the first rejection in registration order) iff
any hook rejects. -/
def firstErr : List (Except String Unit) → Except String Unit
  | [] => .ok ()
  | .error e :: _ => .error e
  | .ok _ :: rest => firstErr rest

/-- The start barrier: `await Promise.all(services.map(s => s.start?.(signal)))`. -/
def startPhase (services : List ServiceM) : Except String Unit :=
  firstErr (services.map (fun s => s.start.getD (.ok ())))

/-- The stop barrier: `await Promise.all(services.map(s => s.stop?.()))`.
Every stop hook is invoked (the async closures all begin before any is
awaited); no error is caught or logged. -/
def stopPhase (services : List ServiceM) : Except String Unit :=
  firstErr (services.map (fun s => s.stop.getD (.ok ())))

/-- The services whose `stop` hook is invoked during the stop barrier
(optional chaining skips services without one). -/
def stopInvokedNames (services : List ServiceM) : List String :=
  (services.filter (fun s => s.stop.isSome)).map (fun s => s.name)

/-- The run barrier: every service with a `run` hook executes its restart
loop (all loops started concurrently at time 0); the barrier completes when
every loop has exited, collecting each loop's log entries.  `none` when some
loop is still running after `fuel` iterations. -/
def runPhase (sig : Nat → Bool) (wake : Nat → Nat) (fuel : Nat) :
    List ServiceM → Option (List String)
  | [] => some []
  | s :: rest =>
    let here : Option (List String) :=
      match s.runB with
      | none => some []
      | some rb =>
        match runLoop rb sig wake s.name fuel 0 with
        | (logs, some _) => some logs
        | (_, none) => none
    match here, runPhase sig wake fuel rest with
    | some l1, some l2 => some (l1 ++ l2)
    | _, _ => none

/-- Observable outcome of a settled `TokenRingApp.run()` call. -/
structure RunOutcome where
  startResult : Except String Unit
  runLogs : List String
  stopInvoked : List String
  stopResult : Except String Unit
  result : Except String Unit

/-- `TokenRingApp.run()`: the three awaited barriers in sequence.  A start
rejection settles the call at once (loops and stops never run); otherwise the
call settles only after every restart loop has exited, with the stop
barrier's outcome.  `none` models a still-pending `run()` (some loop had not
exited within the modelled fuel). -/
def run (services : List ServiceM) (sig : Nat → Bool) (wake : Nat → Nat)
    (fuel : Nat) : Option RunOutcome :=
  match startPhase services with
  | .error e => some ⟨.error e, [], [], .ok (), .error e⟩
  | .ok _ =>
    match runPhase sig wake fuel services with
    | none => none
    | some logs =>
      let sr := stopPhase services
      some ⟨.ok (), logs, stopInvokedNames services, sr, sr⟩

end TokenRingApp

/-- Names of the plugins in `l` whose `install` hook exists (and is therefore
invoked when the install loop reaches them). -/
def installInvokedNames {Cfg Slice : Type} (l : List (PluginM Cfg Slice)) :
    List String :=
  (l.filter (fun p => p.install.isSome)).map (fun p => p.name)

/-- Names of the plugins in `l` whose `start` hook exists. -/
def startInvokedNames {Cfg Slice : Type} (l : List (PluginM Cfg Slice)) :
    List String :=
  (l.filter (fun p => p.start.isSome)).map (fun p => p.name)

namespace Examples

/-- A store holding one `Counter` slice with two subscribers. -/
def mEx : StateManager Nat := ⟨[("Counter", 5)], [("Counter", [0, 1])]⟩

/-- A store holding one `Counter` slice with three subscribers. -/
def mEx3 : StateManager Nat := ⟨[("Counter", 5)], [("Counter", [0, 1, 2])]⟩

/-- A store with no slice initialised. -/
def mEmpty : StateManager Nat := ⟨[], []⟩

/-- A mutation callback: increment the counter, return its doubled old value. -/
def cbEx : Nat → Nat × Nat := fun s => (s + 1, s * 2)

/-- Subscriber behaviour: every subscriber returns normally. -/
def behOk : Nat → Nat → Except String Unit := fun _ _ => .ok ()

/-- Subscriber behaviour: subscriber 1 throws, the others return normally. -/
def behThrow1 : Nat → Nat → Except String Unit :=
  fun i _ => if i = 1 then .error "subscriber boom" else .ok ()

/-- A plugin whose hooks all succeed; its schema parses the config to itself. -/
def okPlugin (nm : String) : PluginM Nat Nat :=
  ⟨nm, some (fun c => .ok c), some (fun _ => .ok ()), some (fun _ => .ok), none⟩

/-- A plugin whose `install` hook throws. -/
def badInstallPlugin : PluginM Nat Nat :=
  ⟨"B", none, some (fun _ => .error "install boom"), none, none⟩

/-- A plugin whose `start` hook throws synchronously. -/
def badStartPlugin : PluginM Nat Nat :=
  ⟨"B", none, none, some (fun _ => .throws "start boom"), none⟩

/-- A plugin whose asynchronous `start` hook returns a rejecting promise. -/
def asyncStartPlugin : PluginM Nat Nat :=
  ⟨"B", none, none, some (fun _ => .rejects "start boom"), none⟩

/-- A plugin with a schema and a `reconfigure` hook. -/
def reconfPlugin : PluginM Nat Nat :=
  ⟨"R", some (fun c => .ok c), none, none, some (fun _ => .ok ())⟩

/-- A plugin with a schema and no `reconfigure` hook. -/
def rigidPlugin : PluginM Nat Nat :=
  ⟨"N", some (fun c => .ok c), none, none, none⟩

/-- An abort signal that never fires. -/
def sigNever : Nat → Bool := fun _ => false

/-- An abort signal that fires at time 1. -/
def sigPos : Nat → Bool := fun t => t != 0

/-- A backoff wake-up schedule (its value is irrelevant to the claims). -/
def wakeId : Nat → Nat := fun t => t

/-- A service whose `stop` hook throws. -/
def stopFailSvc : ServiceM := ⟨"S", none, none, some (.error "stop boom")⟩

/-- A service with a `run` hook that takes one time unit and returns normally. -/
def runSvc : ServiceM := ⟨"R", none, some ⟨fun _ => 1, fun _ => none⟩, none⟩

/-- The outcome of `run()` over `[stopFailSvc]` with a never-firing signal. -/
def outEx : TokenRingApp.RunOutcome :=
  ⟨.ok (), [], ["S"], .error "stop boom", .error "stop boom"⟩

end Examples

section Lemmas

variable {σ R : Type}

theorem lookupKey_setKey_self {α : Type} (l : List (String × α)) (key : String)
    (v : α) : lookupKey (setKey l key v) key = some v := by
  induction l with
  | nil => simp [setKey, lookupKey]
  | cons kv rest ih =>
    obtain ⟨k, w⟩ := kv
    by_cases h : k = key <;> simp [setKey, lookupKey, h, ih]

theorem notifyAll_ok (beh : Nat → σ → Except String Unit) (slice : σ)
    (subs : List Nat) (hbeh : ∀ i, beh i slice = .ok ()) :
    StateManager.notifyAll beh slice subs =
      (subs.map (fun i => (i, slice)), none) := by
  induction subs with
  | nil => rfl
  | cons id rest ih => simp [StateManager.notifyAll, hbeh id, ih]

theorem notifyAll_break (beh : Nat → σ → Except String Unit) (slice : σ)
    (pre post : List Nat) (j : Nat) (e : String)
    (hpre : ∀ i ∈ pre, beh i slice = .ok ())
    (hj : beh j slice = .error e) :
    StateManager.notifyAll beh slice (pre ++ j :: post) =
      (pre.map (fun i => (i, slice)) ++ [(j, slice)], some e) := by
  induction pre with
  | nil => simp [StateManager.notifyAll, hj]
  | cons a rest ih =>
    have ha := hpre a (by simp)
    have ih' := ih (fun i hi => hpre i (by simp [hi]))
    simp [StateManager.notifyAll, ha, ih']

theorem mem_subscribe_subs (m : StateManager σ) (key : String) (cbId : Nat) :
    cbId ∈ (lookupKey (m.subscribe key cbId).subscribers key).getD [] := by
  unfold StateManager.subscribe
  simp only [lookupKey_setKey_self, Option.getD_some]
  split
  · assumption
  · simp

theorem subscribe_state (m : StateManager σ) (key : String) (cbId : Nat) :
    (m.subscribe key cbId).state = m.state := rfl

end Lemmas

/-- C1: with a slice stored under `key` and subscribers that return normally,
`mutateState` runs the callback on the stored slice, stores the mutated
slice, notifies every subscriber registered for the key with that mutated
slice, and returns the callback's value; with no slice stored it throws the
slice-not-found error and neither the callback nor any subscriber runs. -/
theorem C1_mutateState {σ R : Type} (m : StateManager σ) (key : String)
    (callback : σ → σ × R) (beh : Nat → σ → Except String Unit)
    (hbeh : ∀ i x, beh i x = .ok ()) :
    (∀ s, lookupKey m.state key = some s →
      (m.mutateState key callback beh).callbackRan = true ∧
      (m.mutateState key callback beh).state = setKey m.state key (callback s).1 ∧
      (m.mutateState key callback beh).notified =
        ((lookupKey m.subscribers key).getD []).map (fun i => (i, (callback s).1)) ∧
      (m.mutateState key callback beh).result = .ok (callback s).2) ∧
    (lookupKey m.state key = none →
      (m.mutateState key callback beh).result = .error (sliceNotFoundMsg key) ∧
      (m.mutateState key callback beh).callbackRan = false ∧
      (m.mutateState key callback beh).notified = [] ∧
      (m.mutateState key callback beh).state = m.state) := by
  constructor
  · intro s hs
    have hn := notifyAll_ok beh (callback s).1
      ((lookupKey m.subscribers key).getD []) (fun i => hbeh i _)
    simp [StateManager.mutateState, hs, hn]
  · intro hs
    simp [StateManager.mutateState, hs]

/-- C1 witness: the theorem applied to a concrete store, callback and
subscriber set. -/
theorem C1_mutateState_witness :
    (Examples.mEx.mutateState "Counter" Examples.cbEx Examples.behOk).callbackRan = true ∧
    (Examples.mEx.mutateState "Counter" Examples.cbEx Examples.behOk).state =
      [("Counter", 6)] ∧
    (Examples.mEx.mutateState "Counter" Examples.cbEx Examples.behOk).notified =
      [(0, 6), (1, 6)] ∧
    (Examples.mEx.mutateState "Counter" Examples.cbEx Examples.behOk).result =
      .ok 10 := by
  have h := (C1_mutateState Examples.mEx "Counter" Examples.cbEx Examples.behOk
    (fun i x => rfl)).1 5 rfl
  exact ⟨h.1, h.2.1.trans rfl, h.2.2.1.trans rfl, h.2.2.2.trans rfl⟩

/-- C8: when a subscriber callback throws during `mutateState`, the exception
propagates to the caller (the callback's return value is not returned), the
slice keeps its mutated value, and subscribers later in iteration order are
not notified. -/
theorem C8_subscriberThrow {σ R : Type} (m : StateManager σ) (key : String)
    (callback : σ → σ × R) (beh : Nat → σ → Except String Unit)
    (s : σ) (hs : lookupKey m.state key = some s)
    (pre post : List Nat) (j : Nat) (e : String)
    (hsubs : (lookupKey m.subscribers key).getD [] = pre ++ j :: post)
    (hpre : ∀ i ∈ pre, beh i (callback s).1 = .ok ())
    (hj : beh j (callback s).1 = .error e) :
    (m.mutateState key callback beh).result = .error e ∧
    (m.mutateState key callback beh).state = setKey m.state key (callback s).1 ∧
    (m.mutateState key callback beh).notified =
      pre.map (fun i => (i, (callback s).1)) ++ [(j, (callback s).1)] := by
  have hn := notifyAll_break beh (callback s).1 pre post j e hpre hj
  simp [StateManager.mutateState, hs, hsubs, hn]

/-- C8 witness: three subscribers, the middle one throws; the store keeps the
mutated value, the error propagates, the third subscriber is never notified. -/
theorem C8_subscriberThrow_witness :
    (Examples.mEx3.mutateState "Counter" Examples.cbEx Examples.behThrow1).result =
      .error "subscriber boom" ∧
    (Examples.mEx3.mutateState "Counter" Examples.cbEx Examples.behThrow1).state =
      [("Counter", 6)] ∧
    (Examples.mEx3.mutateState "Counter" Examples.cbEx Examples.behThrow1).notified =
      [(0, 6), (1, 6)] := by
  have h := C8_subscriberThrow Examples.mEx3 "Counter" Examples.cbEx
    Examples.behThrow1 5 rfl [0] [2] 1 "subscriber boom" rfl
    (by intro i hi; simp at hi; subst hi; rfl) rfl
  exact ⟨h.1, h.2.1.trans rfl, h.2.2.trans rfl⟩

/-- C9: when the predicate already holds for the current slice,
`waitForState` resolves with that slice after the single deferred replay
scheduled by `subscribe`, with no mutation having occurred. -/
theorem C9_waitForState {σ : Type} (m : StateManager σ) (key : String)
    (p : σ → Bool) (cbId : Nat) (s : σ)
    (hs : lookupKey m.state key = some s) (hp : p s = true) :
    StateManager.waitForStateFirstReplay m key p cbId =
      StateManager.WaitOutcome.resolved s := by
  have hmem := mem_subscribe_subs m key cbId
  unfold StateManager.waitForStateFirstReplay StateManager.replayTask
  simp only [hmem, if_true]
  have hget : (m.subscribe key cbId).getState key = .ok s := by
    unfold StateManager.getState
    rw [subscribe_state, hs]
  simp [hget, hp]

/-- C9 witness: the predicate `5 ≤ n` already holds for the stored counter,
so `waitForState` resolves with it after the deferred replay. -/
theorem C9_waitForState_witness :
    StateManager.waitForStateFirstReplay Examples.mEx "Counter"
      (fun n => Nat.ble 5 n) 7 = StateManager.WaitOutcome.resolved 5 :=
  C9_waitForState Examples.mEx "Counter" (fun n => Nat.ble 5 n) 7 5 rfl rfl

/-- C10: subscribing when no slice is initialised under the key still
registers the callback (and the returned unsubscribe closure removes it),
but the deferred replay throws the slice-not-found error from `getState`
instead of delivering a value to the callback. -/
theorem C10_subscribeNoSlice {σ : Type} (m : StateManager σ) (key : String)
    (cbId : Nat)
    (hs : lookupKey m.state key = none)
    (hcb : cbId ∉ (lookupKey m.subscribers key).getD []) :
    cbId ∈ (lookupKey (m.subscribe key cbId).subscribers key).getD [] ∧
    cbId ∉ (lookupKey ((m.subscribe key cbId).unsubscribe key cbId).subscribers key).getD [] ∧
    StateManager.replayTask (m.subscribe key cbId) key cbId =
      .error (sliceNotFoundMsg key) := by
  refine ⟨mem_subscribe_subs m key cbId, ?_, ?_⟩
  · unfold StateManager.unsubscribe StateManager.subscribe
    simp only [lookupKey_setKey_self, Option.getD_some, if_neg hcb]
    rw [List.erase_append_right _ hcb]
    simp [lookupKey_setKey_self, hcb]
  · unfold StateManager.replayTask
    have hmem := mem_subscribe_subs m key cbId
    have hget : (m.subscribe key cbId).getState key =
        .error (sliceNotFoundMsg key) := by
      unfold StateManager.getState
      rw [subscribe_state, hs]
    simp [hmem, hget]

/-- C10 witness: subscribing on an empty store registers callback 3, the
unsubscribe closure removes it, and the deferred replay throws. -/
theorem C10_subscribeNoSlice_witness :
    3 ∈ (lookupKey (Examples.mEmpty.subscribe "Counter" 3).subscribers "Counter").getD [] ∧
    3 ∉ (lookupKey ((Examples.mEmpty.subscribe "Counter" 3).unsubscribe "Counter" 3).subscribers "Counter").getD [] ∧
    StateManager.replayTask (Examples.mEmpty.subscribe "Counter" 3) "Counter" 3 =
      .error (sliceNotFoundMsg "Counter") :=
  C10_subscribeNoSlice Examples.mEmpty "Counter" 3 rfl (by simp [Examples.mEmpty, lookupKey])

section GenLemmas

variable {σ : Type}

theorem genRun_of_not_live (evs : List (GEvent σ)) :
    ∀ c : GenCfg σ, c.live = false → GenCfg.run c evs = [] := by
  induction evs with
  | nil => intro c _; rfl
  | cons ev rest ih =>
    intro c h
    cases ev with
    | mutate s =>
      simp only [GenCfg.run, GenCfg.step, h, Bool.false_eq_true, if_false]
      exact ih _ rfl
    | replay =>
      simp only [GenCfg.run, GenCfg.step, h, Bool.false_eq_true, if_false]
      exact ih c h
    | abort =>
      simp only [GenCfg.run, GenCfg.step, h, Bool.false_and, Bool.false_eq_true,
        if_false]
      exact ih _ rfl
    | pull =>
      simp only [GenCfg.run, GenCfg.step, h, Bool.false_eq_true, if_false]
      exact ih c h

theorem genRun_of_aborted (evs : List (GEvent σ)) :
    ∀ c : GenCfg σ, c.aborted = true → GenCfg.run c evs = [] := by
  induction evs with
  | nil => intro c _; rfl
  | cons ev rest ih =>
    intro c h
    cases ev with
    | mutate s =>
      by_cases hl : c.live
      · by_cases hp : c.pending
        · simp only [GenCfg.run, GenCfg.step, hl, hp, if_true, GenCfg.resume, h]
          exact ih _ rfl
        · simp only [GenCfg.run, GenCfg.step, hl, hp, if_true, if_false]
          exact ih _ h
      · simp only [GenCfg.run, GenCfg.step, hl, Bool.false_eq_true, if_false]
        exact ih _ h
    | replay =>
      by_cases hl : c.live
      · by_cases hp : c.pending
        · simp only [GenCfg.run, GenCfg.step, hl, hp, if_true, GenCfg.resume, h]
          exact ih _ rfl
        · simp only [GenCfg.run, GenCfg.step, hl, hp, if_true, if_false]
          exact ih _ h
      · simp only [GenCfg.run, GenCfg.step, hl, Bool.false_eq_true, if_false]
        exact ih c h
    | abort =>
      by_cases hl : c.live <;> by_cases hp : c.pending <;>
        simp only [GenCfg.run, GenCfg.step, hl, hp, Bool.and_self, Bool.and_false,
          Bool.and_true, Bool.false_and, Bool.true_and, if_true, if_false,
          GenCfg.resume, h] <;> exact ih _ rfl
    | pull =>
      by_cases hl : c.live
      · simp only [GenCfg.run, GenCfg.step, hl, if_true, GenCfg.resume, h]
        exact ih _ rfl
      · simp only [GenCfg.run, GenCfg.step, hl, Bool.false_eq_true, if_false]
        exact ih c h

theorem genRun_coalesce (ms : List σ) :
    ∀ c : GenCfg σ, c.live = true → c.aborted = false → c.pending = false →
    ∀ (v : σ) (rest : List (GEvent σ)),
      GenCfg.run c (((ms ++ [v]).map GEvent.mutate) ++ GEvent.pull :: rest) =
        v :: GenCfg.run { c with cur := some v, latest := none, pending := false }
          rest := by
  induction ms with
  | nil =>
    intro c hl ha hp v rest
    simp only [List.nil_append, List.map_cons, List.map_nil, List.cons_append,
      List.nil_append]
    simp only [GenCfg.run, GenCfg.step, hl, hp, if_true, Bool.false_eq_true,
      if_false, GenCfg.resume, ha]
  | cons a ms ih =>
    intro c hl ha hp v rest
    simp only [List.cons_append, List.map_cons, List.cons_append]
    simp only [GenCfg.run, GenCfg.step, hl, hp, if_true, Bool.false_eq_true,
      if_false]
    exact ih ⟨some a, some a, c.aborted, true, false⟩ rfl ha rfl v rest

theorem genRun_replay_dup (c : GenCfg σ) (v : σ) (hl : c.live = true)
    (ha : c.aborted = false) (hp : c.pending = false) (hcur : c.cur = some v)
    (rest : List (GEvent σ)) :
    GenCfg.run c (GEvent.replay :: GEvent.pull :: rest) =
      v :: GenCfg.run { c with latest := none, pending := false } rest := by
  simp only [GenCfg.run, GenCfg.step, hl, hp, if_true, Bool.false_eq_true,
    if_false, GenCfg.resume, ha, hcur]

end GenLemmas

/-- C6 counterexample: a consumer that pulls, lets the deferred replay
microtask queued by the generator's internal `subscribe` fire, and pulls
again receives two elements although the schedule contains no mutation
notification at all — refuting the claim that subsequent elements are
produced only after a mutation notification. -/
theorem C6_counterexample :
    Examples.mEx.subscribeAsyncInit "Counter" false =
      .ok ⟨some 5, some 5, false, true, false⟩ ∧
    GenCfg.run (⟨some 5, some 5, false, true, false⟩ : GenCfg Nat)
      [GEvent.pull, GEvent.replay, GEvent.pull] = [5, 5] :=
  ⟨rfl, rfl⟩

/-- C6 (amended): semantics of `subscribeAsync` over the cooperative event
model: (a) with an already-cancelled token the generator returns at once and
the sequence is empty whatever happens later; (b) otherwise the generator
starts with the current slice buffered, and the consumer's first pull yields
it; (c) the single deferred replay queued by the internal `subscribe` refills
the buffer with the then-current slice, so the following pull yields it again
even without a mutation (one duplicate); (d) apart from that replay, a pull
with an empty buffer delivers nothing by itself; (e) when several mutations
occur before the consumer pulls again, the pull yields only the latest
mutated value — intermediate values are dropped; (f) once the token fires,
the sequence delivers nothing further. -/
theorem C6_subscribeAsync {σ : Type} (m : StateManager σ) (key : String) :
    (m.subscribeAsyncInit key true =
        .ok ⟨none, none, true, false, false⟩ ∧
      ∀ evs : List (GEvent σ),
        GenCfg.run (⟨none, none, true, false, false⟩ : GenCfg σ) evs = []) ∧
    (∀ s, lookupKey m.state key = some s →
      m.subscribeAsyncInit key false = .ok ⟨some s, some s, false, true, false⟩ ∧
      ∀ rest : List (GEvent σ),
        GenCfg.run (⟨some s, some s, false, true, false⟩ : GenCfg σ)
          (GEvent.pull :: rest) =
          s :: GenCfg.run (⟨some s, none, false, true, false⟩ : GenCfg σ) rest) ∧
    (∀ (c : GenCfg σ) (v : σ), c.live = true → c.aborted = false →
      c.pending = false → c.cur = some v →
      ∀ rest : List (GEvent σ),
        GenCfg.run c (GEvent.replay :: GEvent.pull :: rest) =
          v :: GenCfg.run { c with latest := none, pending := false } rest) ∧
    (∀ c : GenCfg σ, c.live = true → c.aborted = false → c.pending = false →
      c.latest = none → GenCfg.run c [GEvent.pull] = []) ∧
    (∀ c : GenCfg σ, c.live = true → c.aborted = false → c.pending = false →
      ∀ (ms : List σ) (v : σ) (rest : List (GEvent σ)),
        GenCfg.run c (((ms ++ [v]).map GEvent.mutate) ++ GEvent.pull :: rest) =
          v :: GenCfg.run { c with cur := some v, latest := none, pending := false }
            rest) ∧
    (∀ c : GenCfg σ, c.aborted = true →
      ∀ evs : List (GEvent σ), GenCfg.run c evs = []) := by
  refine ⟨⟨rfl, fun evs => genRun_of_not_live evs _ rfl⟩, ?_, ?_, ?_, ?_, ?_⟩
  · intro s hs
    constructor
    · unfold StateManager.subscribeAsyncInit StateManager.getState
      simp [hs]
    · intro rest
      simp only [GenCfg.run, GenCfg.step, GenCfg.resume]
      rfl
  · intro c v hl ha hp hcur rest
    exact genRun_replay_dup c v hl ha hp hcur rest
  · intro c hl ha hp hlat
    simp only [GenCfg.run, GenCfg.step, hl, if_true, GenCfg.resume, ha, hlat,
      Bool.false_eq_true, if_false]
  · intro c hl ha hp ms v rest
    exact genRun_coalesce ms c hl ha hp v rest
  · intro c h evs
    exact genRun_of_aborted evs c h

/-- C6 witness: on a store holding counter 5 — a cancelled token gives the
empty sequence; a first pull yields 5; the deferred replay then a pull yields
the duplicate 5; a lone pull with an empty buffer yields nothing; three rapid
mutations 7, 8, 9 before the next pull yield only 9; after an abort nothing
more is delivered. -/
theorem C6_subscribeAsync_witness :
    Examples.mEx.subscribeAsyncInit "Counter" true =
      .ok ⟨none, none, true, false, false⟩ ∧
    GenCfg.run (⟨none, none, true, false, false⟩ : GenCfg Nat)
      [GEvent.pull, GEvent.pull] = [] ∧
    Examples.mEx.subscribeAsyncInit "Counter" false =
      .ok ⟨some 5, some 5, false, true, false⟩ ∧
    GenCfg.run (⟨some 5, some 5, false, true, false⟩ : GenCfg Nat)
      [GEvent.pull, GEvent.mutate 7, GEvent.mutate 8, GEvent.mutate 9,
        GEvent.pull] = [5, 9] ∧
    GenCfg.run (⟨some 5, none, false, true, false⟩ : GenCfg Nat)
      [GEvent.replay, GEvent.pull] = [5] ∧
    GenCfg.run (⟨some 5, none, false, true, false⟩ : GenCfg Nat)
      [GEvent.pull] = [] ∧
    GenCfg.run (⟨some 5, some 5, true, true, false⟩ : GenCfg Nat)
      [GEvent.pull, GEvent.mutate 7, GEvent.pull] = [] := by
  obtain ⟨⟨hi, ha⟩, hb, hr, hblock, hc, hd⟩ :=
    @C6_subscribeAsync Nat Examples.mEx "Counter"
  obtain ⟨hb1, hb2⟩ := hb 5 rfl
  refine ⟨hi, ha _, hb1, ?_, ?_, hblock ⟨some 5, none, false, true, false⟩ rfl rfl rfl rfl,
    hd ⟨some 5, some 5, true, true, false⟩ rfl _⟩
  · have h2 := hb2 [GEvent.mutate 7, GEvent.mutate 8, GEvent.mutate 9, GEvent.pull]
    rw [h2]
    have h3 := hc ⟨some 5, none, false, true, false⟩ rfl rfl rfl [7, 8] 9 []
    simp only [List.map_cons, List.map_nil, List.cons_append, List.nil_append] at h3
    rw [h3]
    rfl
  · have h4 := hr ⟨some 5, none, false, true, false⟩ 5 rfl rfl rfl rfl []
    rw [h4]
    rfl

section PluginLemmas

variable {Cfg Slice : Type} (appConfig : Cfg) (emptySlice : Slice)

theorem installStep_isSome (b : PluginM Cfg Slice) (e : String)
    (hb : PluginM.installStep appConfig emptySlice b = .error e) :
    b.install.isSome = true := by
  cases hi : b.install with
  | none => unfold PluginM.installStep at hb; rw [hi] at hb; simp at hb
  | some f => rfl

theorem installPhase_all_ok (l : List (PluginM Cfg Slice))
    (h : ∀ p ∈ l, PluginM.installStep appConfig emptySlice p = .ok ()) :
    PluginM.installPhase appConfig emptySlice l =
      (l, installInvokedNames l, [], .ok ()) := by
  induction l with
  | nil => rfl
  | cons p rest ih =>
    have hp := h p (by simp)
    have ih' := ih (fun q hq => h q (by simp [hq]))
    by_cases hi : p.install.isSome <;>
      simp [PluginM.installPhase, hp, ih', installInvokedNames, hi, List.filter]

theorem installPhase_break (pre post : List (PluginM Cfg Slice))
    (b : PluginM Cfg Slice) (e : String)
    (hpre : ∀ p ∈ pre, PluginM.installStep appConfig emptySlice p = .ok ())
    (hb : PluginM.installStep appConfig emptySlice b = .error e) :
    PluginM.installPhase appConfig emptySlice (pre ++ b :: post) =
      (pre, installInvokedNames pre ++ [b.name],
        [(PluginM.installErrorMsg b.name, e)], .error e) := by
  induction pre with
  | nil =>
    have hs := installStep_isSome appConfig emptySlice b e hb
    simp [PluginM.installPhase, hb, hs, installInvokedNames]
  | cons p rest ih =>
    have hp := hpre p (by simp)
    have ih' := ih (fun q hq => hpre q (by simp [hq]))
    by_cases hi : p.install.isSome <;>
      simp [PluginM.installPhase, hp, ih', installInvokedNames, hi, List.filter]

theorem installPhase_result_ok (l : List (PluginM Cfg Slice))
    (h : (PluginM.installPhase appConfig emptySlice l).2.2.2 = .ok ()) :
    ∀ p ∈ l, PluginM.installStep appConfig emptySlice p = .ok () := by
  induction l with
  | nil => intro p hp; cases hp
  | cons q rest ih =>
    intro p hp
    cases hq : PluginM.installStep appConfig emptySlice q with
    | error e => simp [PluginM.installPhase, hq] at h
    | ok u =>
      simp only [PluginM.installPhase, hq] at h
      rcases List.mem_cons.mp hp with rfl | hp'
      · cases u; exact hq
      · exact ih h p hp'

end PluginLemmas

/-- C2: when a plugin's install hook throws, the install loop logs
`Error installing plugin "<name>"` with the error and re-raises it; plugins
before the failing one stay registered (in list order), the failing plugin is
not registered, plugins after it are never installed or registered, and no
start hook runs. -/
theorem C2_installAbort {Cfg Slice : Type} (appConfig : Cfg) (emptySlice : Slice)
    (pre post : List (PluginM Cfg Slice)) (b : PluginM Cfg Slice) (e : String)
    (hpre : ∀ p ∈ pre, PluginM.installStep appConfig emptySlice p = .ok ())
    (hb : PluginM.installStep appConfig emptySlice b = .error e) :
    (PluginM.installPlugins appConfig emptySlice (pre ++ b :: post)).registered = pre ∧
    (PluginM.installPlugins appConfig emptySlice (pre ++ b :: post)).installInvoked =
      installInvokedNames pre ++ [b.name] ∧
    (PluginM.installPlugins appConfig emptySlice (pre ++ b :: post)).startInvoked = [] ∧
    (PluginM.installPlugins appConfig emptySlice (pre ++ b :: post)).logs =
      [(PluginM.installErrorMsg b.name, e)] ∧
    (PluginM.installPlugins appConfig emptySlice (pre ++ b :: post)).result = .error e := by
  have hph := installPhase_break appConfig emptySlice pre post b e hpre hb
  simp [PluginM.installPlugins, hph]

/-- C2 witness: the batch `[A (install ok), B (install throws), C]` leaves A
registered, B and C unregistered, C never installed, and rejects with B's
error after logging it. -/
theorem C2_installAbort_witness :
    (PluginM.installPlugins 0 0
      [Examples.okPlugin "A", Examples.badInstallPlugin, Examples.okPlugin "C"]).registered =
      [Examples.okPlugin "A"] ∧
    (PluginM.installPlugins 0 0
      [Examples.okPlugin "A", Examples.badInstallPlugin, Examples.okPlugin "C"]).installInvoked =
      ["A", "B"] ∧
    (PluginM.installPlugins 0 0
      [Examples.okPlugin "A", Examples.badInstallPlugin, Examples.okPlugin "C"]).startInvoked = [] ∧
    (PluginM.installPlugins 0 0
      [Examples.okPlugin "A", Examples.badInstallPlugin, Examples.okPlugin "C"]).logs =
      [(PluginM.installErrorMsg "B", "install boom")] ∧
    (PluginM.installPlugins 0 0
      [Examples.okPlugin "A", Examples.badInstallPlugin, Examples.okPlugin "C"]).result =
      .error "install boom" := by
  have h := C2_installAbort 0 0 [Examples.okPlugin "A"] [Examples.okPlugin "C"]
    Examples.badInstallPlugin "install boom"
    (by intro p hp; simp at hp; subst hp; rfl) rfl
  exact ⟨h.1, h.2.1.trans rfl, h.2.2.1, h.2.2.2.1.trans rfl, h.2.2.2.2⟩

/-- C3 (code bug, evaluated at the failing input): `installPlugins` invokes
`plugin.start` without `await` although the hook is typed
`Promise<void> | void` and documented as asynchronous initialisation, so for
a plugin whose asynchronous start rejects, nothing is logged, nothing is
re-raised and the call resolves — the rejection escapes unhandled — while
the same failure thrown synchronously is logged as
`Error starting plugin "<name>"` and re-raised with the batch registered,
exactly as the claim describes for the synchronous path. -/
theorem C3_startRejectionEscapes :
    (PluginM.installPlugins 0 0 [Examples.asyncStartPlugin]).result = .ok () ∧
    (PluginM.installPlugins 0 0 [Examples.asyncStartPlugin]).logs = [] ∧
    (PluginM.installPlugins 0 0 [Examples.asyncStartPlugin]).registered =
      [Examples.asyncStartPlugin] ∧
    (PluginM.installPlugins 0 0 [Examples.asyncStartPlugin]).startInvoked = ["B"] ∧
    (PluginM.installPlugins 0 0 [Examples.asyncStartPlugin]).lostStartRejections =
      [("B", "start boom")] ∧
    (PluginM.installPlugins 0 0 [Examples.badStartPlugin]).result =
      .error "start boom" ∧
    (PluginM.installPlugins 0 0 [Examples.badStartPlugin]).registered =
      [Examples.badStartPlugin] ∧
    (PluginM.installPlugins 0 0 [Examples.badStartPlugin]).logs =
      [(PluginM.startErrorMsg "B", "start boom")] :=
  ⟨rfl, rfl, rfl, rfl, rfl, rfl, rfl, rfl⟩

/-- C7: when `reconfigurePlugins(newConfig)` resolves, it returns
`restartRequired = true` iff some registered plugin declares a config schema,
has a new config slice deeply unequal to its previous one, and exposes no
`reconfigure` hook; and the `reconfigure` hooks invoked are exactly those of
the changed plugins that expose one, each receiving its new slice. -/
theorem C7_reconfigure {Cfg Slice : Type} [DecidableEq Slice] (oldCfg newCfg : Cfg)
    (plugins : List (PluginM Cfg Slice))
    (h : (PluginM.reconfigurePlugins oldCfg newCfg plugins).error = none) :
    ((PluginM.reconfigurePlugins oldCfg newCfg plugins).restartRequired = true ↔
      ∃ p ∈ plugins, PluginM.changedNoReconf oldCfg newCfg p = true) ∧
    (PluginM.reconfigurePlugins oldCfg newCfg plugins).reconfigured =
      plugins.filterMap (PluginM.changedReconf oldCfg newCfg) := by
  induction plugins with
  | nil => simp [PluginM.reconfigurePlugins]
  | cons p rest ih =>
    cases hc : p.config with
    | none =>
      simp only [PluginM.reconfigurePlugins, hc] at h ⊢
      obtain ⟨ih1, ih2⟩ := ih h
      refine ⟨?_, ?_⟩
      · simp [List.exists_mem_cons_iff, PluginM.changedNoReconf, hc, ih1]
      · simp [List.filterMap_cons, PluginM.changedReconf, hc, ih2]
    | some parse =>
      cases hold : parse oldCfg with
      | error e =>
        simp only [PluginM.reconfigurePlugins, hc, hold] at h
        simp at h
      | ok prev =>
        cases hnew : parse newCfg with
        | error e =>
          simp only [PluginM.reconfigurePlugins, hc, hold, hnew] at h
          simp at h
        | ok newSlice =>
          by_cases heq : prev = newSlice
          · simp only [PluginM.reconfigurePlugins, hc, hold, hnew, if_pos heq] at h ⊢
            obtain ⟨ih1, ih2⟩ := ih h
            refine ⟨?_, ?_⟩
            · simp [List.exists_mem_cons_iff, PluginM.changedNoReconf, hc, hold,
                hnew, heq, ih1]
            · simp [List.filterMap_cons, PluginM.changedReconf, hc, hold, hnew,
                heq, ih2]
          · cases hr : p.reconfigure with
            | some f =>
              cases hf : f newSlice with
              | error e =>
                simp only [PluginM.reconfigurePlugins, hc, hold, hnew,
                  if_neg heq, hr, hf] at h
                simp at h
              | ok u =>
                simp only [PluginM.reconfigurePlugins, hc, hold, hnew,
                  if_neg heq, hr, hf] at h ⊢
                obtain ⟨ih1, ih2⟩ := ih h
                refine ⟨?_, ?_⟩
                · simp [List.exists_mem_cons_iff, PluginM.changedNoReconf, hc,
                    hold, hnew, heq, hr, ih1]
                · simp [List.filterMap_cons, PluginM.changedReconf, hc, hold,
                    hnew, heq, hr, ih2]
            | none =>
              simp only [PluginM.reconfigurePlugins, hc, hold, hnew,
                if_neg heq, hr] at h ⊢
              obtain ⟨ih1, ih2⟩ := ih h
              refine ⟨?_, ?_⟩
              · constructor
                · intro _
                  exact ⟨p, by simp, by
                    simp [PluginM.changedNoReconf, hc, hold, hnew, heq, hr]⟩
                · intro _; trivial
              · simp [List.filterMap_cons, PluginM.changedReconf, hc, hold,
                  hnew, heq, hr, ih2]

/-- C7 witness: with the config changing from 0 to 1, the plugin exposing
`reconfigure` is reconfigured with the new slice 1, the rigid plugin flags
the aggregate result `restartRequired = true`. -/
theorem C7_reconfigure_witness :
    (PluginM.reconfigurePlugins 0 1
      [Examples.reconfPlugin, Examples.rigidPlugin]).restartRequired = true ∧
    (PluginM.reconfigurePlugins 0 1
      [Examples.reconfPlugin, Examples.rigidPlugin]).reconfigured = [("R", 1)] ∧
    (PluginM.reconfigurePlugins 0 1
      [Examples.reconfPlugin, Examples.rigidPlugin]).error = none := by
  obtain ⟨h1, h2⟩ := C7_reconfigure 0 1 [Examples.reconfPlugin, Examples.rigidPlugin] rfl
  refine ⟨?_, h2.trans rfl, rfl⟩
  exact h1.mpr ⟨Examples.rigidPlugin, by simp, rfl⟩

section SupervisorLemmas

theorem runLoop_exit_aborted (rb : RunBehavior) (sig : Nat → Bool)
    (wake : Nat → Nat) (name : String) :
    ∀ (fuel t : Nat) (logs : List String) (te : Nat),
      TokenRingApp.runLoop rb sig wake name fuel t = (logs, some te) →
      sig te = true := by
  intro fuel
  induction fuel with
  | zero =>
    intro t logs te h
    simp [TokenRingApp.runLoop] at h
  | succ fuel ih =>
    intro t logs te h
    simp only [TokenRingApp.runLoop] at h
    split at h
    · injection h with h1 h2
      injection h2 with h2
      subst h2
      assumption
    · split at h
      · injection h with h1 h2
        injection h2 with h2
        subst h2
        assumption
      · injection h with h1 h2
        exact ih (wake (t + rb.dur t)) _ te (by rw [← h2])

theorem runPhase_cons (sig : Nat → Bool) (wake : Nat → Nat) (fuel : Nat)
    (q : ServiceM) (rest : List ServiceM) (L : List String)
    (h : TokenRingApp.runPhase sig wake fuel (q :: rest) = some L) :
    (∃ L2, TokenRingApp.runPhase sig wake fuel rest = some L2) ∧
    (∀ rb, q.runB = some rb → ∃ logs te,
      TokenRingApp.runLoop rb sig wake q.name fuel 0 = (logs, some te)) := by
  simp only [TokenRingApp.runPhase] at h
  cases hq : q.runB with
  | none =>
    cases hrest : TokenRingApp.runPhase sig wake fuel rest with
    | none => simp [hq, hrest] at h
    | some L2 =>
      exact ⟨⟨L2, rfl⟩, fun rb hrb => absurd hrb (by simp)⟩
  | some rb =>
    cases hloop : TokenRingApp.runLoop rb sig wake q.name fuel 0 with
    | mk logs ex =>
      cases ex with
      | none => simp [hq, hloop] at h
      | some te =>
        cases hrest : TokenRingApp.runPhase sig wake fuel rest with
        | none => simp [hq, hloop, hrest] at h
        | some L2 =>
          refine ⟨⟨L2, rfl⟩, fun rb' hrb' => ?_⟩
          injection hrb' with hrb'
          subst hrb'
          exact ⟨logs, te, hloop⟩

theorem runPhase_some_aborted (sig : Nat → Bool) (wake : Nat → Nat) (fuel : Nat) :
    ∀ (services : List ServiceM) (L : List String),
      TokenRingApp.runPhase sig wake fuel services = some L →
      ∀ s ∈ services, ∀ rb, s.runB = some rb → ∃ t, sig t = true := by
  intro services
  induction services with
  | nil => intro L h s hs; cases hs
  | cons q rest ih =>
    intro L h s hs rb hrb
    obtain ⟨⟨L2, hrest⟩, hq⟩ := runPhase_cons sig wake fuel q rest L h
    rcases List.mem_cons.mp hs with rfl | hs'
    · obtain ⟨logs, te, hloop⟩ := hq rb hrb
      exact ⟨te, runLoop_exit_aborted rb sig wake s.name fuel 0 logs te hloop⟩
    · exact ih L2 hrest s hs' rb hrb

end SupervisorLemmas

/-- C4 counterexample: a single registered service whose `stop()` throws —
`run()` rejects with the stop error (instead of tolerating it) and its log
output is empty (the failure is not logged), refuting the claim that stop
failures are logged and non-fatal. -/
theorem C4_counterexample :
    TokenRingApp.run [Examples.stopFailSvc] Examples.sigNever Examples.wakeId 1 =
      some ⟨.ok (), [], ["S"], .error "stop boom", .error "stop boom"⟩ := rfl

/-- C4 (amended): once `run()` settles after a successful start phase, every
registered service's `stop` hook has been invoked (after all run-loops
exited), but a throwing `stop` is neither caught nor logged: `run()` settles
with the stop barrier's outcome, rejecting whenever any `stop` rejects. -/
theorem C4_amended (services : List ServiceM) (sig : Nat → Bool)
    (wake : Nat → Nat) (fuel : Nat) (out : TokenRingApp.RunOutcome)
    (hrun : TokenRingApp.run services sig wake fuel = some out)
    (hstart : out.startResult = .ok ()) :
    out.stopInvoked = TokenRingApp.stopInvokedNames services ∧
    out.stopResult = TokenRingApp.stopPhase services ∧
    out.result = TokenRingApp.stopPhase services ∧
    TokenRingApp.runPhase sig wake fuel services = some out.runLogs := by
  unfold TokenRingApp.run at hrun
  cases hsp : TokenRingApp.startPhase services with
  | error e =>
    simp only [hsp] at hrun
    injection hrun with h
    rw [← h] at hstart
    simp at hstart
  | ok u =>
    simp only [hsp] at hrun
    cases hrp : TokenRingApp.runPhase sig wake fuel services with
    | none => simp [hrp] at hrun
    | some L =>
      simp only [hrp] at hrun
      injection hrun with h
      subst h
      exact ⟨rfl, rfl, rfl, rfl⟩

/-- C4 witness: the amended theorem applied to the throwing-stop service. -/
theorem C4_amended_witness :
    Examples.outEx.stopInvoked =
      TokenRingApp.stopInvokedNames [Examples.stopFailSvc] ∧
    Examples.outEx.stopResult = TokenRingApp.stopPhase [Examples.stopFailSvc] ∧
    Examples.outEx.result = TokenRingApp.stopPhase [Examples.stopFailSvc] ∧
    TokenRingApp.runPhase Examples.sigNever Examples.wakeId 1
      [Examples.stopFailSvc] = some Examples.outEx.runLogs :=
  C4_amended [Examples.stopFailSvc] Examples.sigNever Examples.wakeId 1
    Examples.outEx rfl rfl

/-- C5 counterexample: with no registered service, `run()` resolves (with
`ok`) although the cancellation signal never fires, refuting the claim that
`run()` never resolves while the token is unsignaled for every service set. -/
theorem C5_counterexample :
    TokenRingApp.run [] Examples.sigNever Examples.wakeId 1 =
      some ⟨.ok (), [], [], .ok (), .ok ()⟩ ∧
    ∀ t, Examples.sigNever t = false :=
  ⟨rfl, fun _ => rfl⟩

/-- C5 (amended): when at least one registered service has a `run` hook and
the start phase succeeded, `run()` settles only after the cancellation signal
has fired: its restart loop exits only at a time where the signal is set. -/
theorem C5_amended (services : List ServiceM) (sig : Nat → Bool)
    (wake : Nat → Nat) (fuel : Nat) (out : TokenRingApp.RunOutcome)
    (hrun : TokenRingApp.run services sig wake fuel = some out)
    (hstart : out.startResult = .ok ())
    (hcap : ∃ s ∈ services, s.runB.isSome = true) :
    ∃ t, sig t = true := by
  obtain ⟨s, hs, hrb⟩ := hcap
  obtain ⟨rb, hrb'⟩ := Option.isSome_iff_exists.mp hrb
  unfold TokenRingApp.run at hrun
  cases hsp : TokenRingApp.startPhase services with
  | error e =>
    simp only [hsp] at hrun
    injection hrun with h
    rw [← h] at hstart
    simp at hstart
  | ok u =>
    simp only [hsp] at hrun
    cases hrp : TokenRingApp.runPhase sig wake fuel services with
    | none => simp [hrp] at hrun
    | some L => exact runPhase_some_aborted sig wake fuel services L hrp s hs rb hrb'

/-- C5 witness: the amended theorem applied to a run-capable service with a
signal firing at time 1. -/
theorem C5_amended_witness : ∃ t, Examples.sigPos t = true :=
  C5_amended [Examples.runSvc] Examples.sigPos Examples.wakeId 1
    ⟨.ok (), [], [], .ok (), .ok ()⟩ rfl rfl
    ⟨Examples.runSvc, by simp, rfl⟩

end TokenRing
